import Mathlib

/-!
Verification development for `reactive_unordered_map`
(src/reactive_unordered_map.hpp).

The C++ class `ReactiveUnorderedMap<Key, Value>` wraps a
`std::unordered_map` and emits signals through an internal
`SignalEmitter` on some mutations.  We embed the container state as an
association list with unique keys (the semantics of
`std::unordered_map`: lookup by key, at most one entry per key) and
embed each member function as a Lean function returning its C++ return
value, the post-call container state, and the list of signals emitted
during the call, in emission order.
-/

set_option autoImplicit false

namespace RUM

/-- The signal payload types of `MapSignals<Key, Value>`
(src/reactive_unordered_map.hpp lines 14-49), as one tagged type.
Reference fields of the C++ structs are embedded as snapshot values. -/
inductive MapEvent (Key Value : Type) where
  | Inserted (key : Key) (value : Value)
  | Updated (key : Key) (old_value new_value : Value)
  | Erased (key : Key) (old_value : Value)
  | Cleared
  | Rehashed (old_bucket_count new_bucket_count : Nat)
  | Reserved (new_capacity : Nat)
deriving DecidableEq, Repr

/-- State of `ReactiveUnorderedMap<Key, Value>`: the private member
`map_` (a `std::unordered_map<Key, Value>`), embedded as an association
list.  A valid `std::unordered_map` holds at most one entry per key;
states reachable through the embedded operations keep that invariant
(see `keysNodup`).  The `SignalEmitter` member is modelled by having
each operation return the events it emits. -/
structure ReactiveUnorderedMap (Key Value : Type) where
  map_ : List (Key × Value)
deriving DecidableEq, Repr

variable {Key Value : Type} [DecidableEq Key]

/-- Lookup of `std::unordered_map` on the embedded state: the value mapped
to `k`, if present (first matching entry). -/
def mapFind : List (Key × Value) → Key → Option Value
  | [], _ => none
  | (k, v) :: rest, key => if k = key then some v else mapFind rest key

/-- Erasure `std::unordered_map::erase(key)` on the embedded state: removes the
entry for `k` (the first matching entry; a valid map has at most one). -/
def mapEraseKey : List (Key × Value) → Key → List (Key × Value)
  | [], _ => []
  | (k, v) :: rest, key => if k = key then rest else (k, v) :: mapEraseKey rest key

/-- Replace the value stored under `k` (first matching entry), used by
`std::unordered_map::insert_or_assign` on the present-key path. -/
def mapAssign : List (Key × Value) → Key → Value → List (Key × Value)
  | [], _, _ => []
  | (k, v) :: rest, key, value =>
    if k = key then (key, value) :: rest else (k, v) :: mapAssign rest key value

/-- Well-formedness of an embedded map state: keys are pairwise
distinct, as in any valid `std::unordered_map`. -/
def keysNodup (m : ReactiveUnorderedMap Key Value) : Prop :=
  (m.map_.map Prod.fst).Nodup

instance (m : ReactiveUnorderedMap Key Value) : Decidable (keysNodup m) := by
  unfold keysNodup; infer_instance

namespace ReactiveUnorderedMap

/-- Member `bool empty() const` (line 105). -/
def empty (m : ReactiveUnorderedMap Key Value) : Bool := m.map_.isEmpty

/-- Member `size_type size() const` (line 106). -/
def size (m : ReactiveUnorderedMap Key Value) : Nat := m.map_.length

/-- Member `iterator find(const Key&)` (line 115): embedded as the optional
value the returned iterator points to (`end()` becomes `none`). -/
def find (m : ReactiveUnorderedMap Key Value) (k : Key) : Option Value :=
  mapFind m.map_ k

/-- Member `bool contains(const Key&)` (line 117):
`map_.find(k) != map_.end()`. -/
def contains (m : ReactiveUnorderedMap Key Value) (k : Key) : Bool :=
  (mapFind m.map_ k).isSome

/-- Member `Value& at(const Key&)` (line 119): `map_.at(k)`, which returns the
mapped value or throws `std::out_of_range` when the key is absent;
embedded as `Except Unit Value` with `.error ()` for the throw. -/
def at' (m : ReactiveUnorderedMap Key Value) (k : Key) : Except Unit Value :=
  match mapFind m.map_ k with
  | some v => .ok v
  | none => .error ()

/-- Member `insert_or_assign(const Key&, Value&&)` (lines 123-125): forwards to
`map_.insert_or_assign`; inserts when absent, overwrites when present.
Returns (value at the returned iterator, `inserted` flag), the new
state, and the emitted events (none: the member does not touch
`signal_emitter`). -/
def insert_or_assign (m : ReactiveUnorderedMap Key Value) (key : Key) (value : Value) :
    (Value × Bool) × ReactiveUnorderedMap Key Value × List (MapEvent Key Value) :=
  match mapFind m.map_ key with
  | some _ => ((value, false), ⟨mapAssign m.map_ key value⟩, [])
  | none => ((value, true), ⟨m.map_ ++ [(key, value)]⟩, [])

/-- Member `try_emplace(const Key&, Args&&...)` (lines 127-129): forwards to
`map_.try_emplace`; `value` stands for the value constructed from the
forwarded arguments.  Inserts iff the key is absent.  Returns (value at
the returned iterator, `inserted` flag), the new state, and the emitted
events (none: the member does not touch `signal_emitter`). -/
def try_emplace (m : ReactiveUnorderedMap Key Value) (key : Key) (value : Value) :
    (Value × Bool) × ReactiveUnorderedMap Key Value × List (MapEvent Key Value) :=
  match mapFind m.map_ key with
  | some v => ((v, false), m, [])
  | none => ((value, true), ⟨m.map_ ++ [(key, value)]⟩, [])

/-- Member `emplace(Args&&...)` (lines 134-139): runs `map_.emplace` (here the
arguments construct the pair `(key, value)`), then, if insertion took
place, emits `Inserted(it->first, it->second)`.  Returns
((key, value) at the returned iterator, `inserted` flag), the new
state, and the emitted events. -/
def emplace (m : ReactiveUnorderedMap Key Value) (key : Key) (value : Value) :
    ((Key × Value) × Bool) × ReactiveUnorderedMap Key Value × List (MapEvent Key Value) :=
  match mapFind m.map_ key with
  | some v => (((key, v), false), m, [])
  | none =>
    (((key, value), true), ⟨m.map_ ++ [(key, value)]⟩, [MapEvent.Inserted key value])

/-- Member `Value& operator[](const Key&)` (line 141): `map_[key]`, which
default-constructs a value for an absent key; embedded with
`Inhabited Value` supplying the default-constructed value.  Returns the
referenced value, the new state, and the emitted events (none: the
member does not touch `signal_emitter`). -/
def opIndex [Inhabited Value] (m : ReactiveUnorderedMap Key Value) (key : Key) :
    Value × ReactiveUnorderedMap Key Value × List (MapEvent Key Value) :=
  match mapFind m.map_ key with
  | some v => (v, m, [])
  | none => (default, ⟨m.map_ ++ [(key, default)]⟩, [])

/-- Member `size_type erase(const Key&)` (lines 146-159): finds the key (early
return 0 when absent), snapshots `old_value`, runs `map_.erase(key)`,
and emits `Erased{key, old_value}` when exactly one element was erased.
Returns the erased count, the new state, and the emitted events. -/
def erase (m : ReactiveUnorderedMap Key Value) (key : Key) :
    Nat × ReactiveUnorderedMap Key Value × List (MapEvent Key Value) :=
  match mapFind m.map_ key with
  | none => (0, m, [])
  | some old_value =>
    let map' := mapEraseKey m.map_ key
    let num_elts_erased := m.map_.length - map'.length
    (num_elts_erased, ⟨map'⟩,
      if num_elts_erased = 1 then [MapEvent.Erased key old_value] else [])

/-- Member `iterator erase(iterator pos)` (line 161): forwards to
`map_.erase(pos)`; an iterator is embedded as an index into the entry
list.  Returns the iterator following the removed entry (the same index
after removal), the new state, and the emitted events (none: the member
does not touch `signal_emitter`). -/
def erasePos (m : ReactiveUnorderedMap Key Value) (pos : Nat) :
    Nat × ReactiveUnorderedMap Key Value × List (MapEvent Key Value) :=
  (pos, ⟨m.map_.eraseIdx pos⟩, [])

/-- Member `void clear()` (line 163): `map_.clear()`.  Returns the new state
and the emitted events (none: the member does not touch
`signal_emitter`). -/
def clear (m : ReactiveUnorderedMap Key Value) :
    ReactiveUnorderedMap Key Value × List (MapEvent Key Value) :=
  (⟨[]⟩, [])

/-- Member `bool update_if_exists(const Key&, Value&&)` (lines 165-171):
replaces the stored value when the key is present; no emission. -/
def update_if_exists (m : ReactiveUnorderedMap Key Value) (key : Key) (new_value : Value) :
    Bool × ReactiveUnorderedMap Key Value × List (MapEvent Key Value) :=
  match mapFind m.map_ key with
  | none => (false, m, [])
  | some _ => (true, ⟨mapAssign m.map_ key new_value⟩, [])

end ReactiveUnorderedMap

/-! Basic lemmas about the embedded `std::unordered_map` primitives. -/

theorem mapFind_eq_none_iff {l : List (Key × Value)} {key : Key} :
    mapFind l key = none ↔ key ∉ l.map Prod.fst := by
  induction l with
  | nil => simp [mapFind]
  | cons p rest ih =>
    obtain ⟨k, v⟩ := p
    by_cases hk : k = key
    · subst hk
      simp [mapFind]
    · rw [show mapFind ((k, v) :: rest) key = mapFind rest key by simp [mapFind, hk]]
      rw [ih, List.map_cons, List.mem_cons]
      constructor
      · intro h hc
        rcases hc with hc | hc
        · exact hk hc.symm
        · exact h hc
      · exact fun h hc => h (Or.inr hc)

theorem mapFind_append_self {l : List (Key × Value)} {key : Key}
    (h : mapFind l key = none) (v : Value) :
    mapFind (l ++ [(key, v)]) key = some v := by
  induction l with
  | nil => simp [mapFind]
  | cons p rest ih =>
    obtain ⟨k, w⟩ := p
    by_cases hk : k = key
    · simp [mapFind, hk] at h
    · simp [mapFind, hk] at h ⊢
      exact ih h

theorem mapFind_mapAssign_self {l : List (Key × Value)} {key : Key} {v₀ : Value}
    (h : mapFind l key = some v₀) (value : Value) :
    mapFind (mapAssign l key value) key = some value := by
  induction l with
  | nil => simp [mapFind] at h
  | cons p rest ih =>
    obtain ⟨k, w⟩ := p
    by_cases hk : k = key
    · simp [mapAssign, hk, mapFind]
    · simp [mapFind, hk] at h
      simp [mapAssign, hk, mapFind, ih h]

theorem mapEraseKey_sublist (l : List (Key × Value)) (key : Key) :
    (mapEraseKey l key).Sublist l := by
  induction l with
  | nil => simp [mapEraseKey]
  | cons p rest ih =>
    obtain ⟨k, v⟩ := p
    by_cases hk : k = key
    · simp [mapEraseKey, hk]
    · simpa [mapEraseKey, hk] using ih.cons₂ (k, v)

theorem length_mapEraseKey {l : List (Key × Value)} {key : Key} {v : Value}
    (h : mapFind l key = some v) :
    (mapEraseKey l key).length + 1 = l.length := by
  induction l with
  | nil => simp [mapFind] at h
  | cons p rest ih =>
    obtain ⟨k, w⟩ := p
    by_cases hk : k = key
    · simp [mapEraseKey, hk]
    · simp [mapFind, hk] at h
      have := ih h
      simp [mapEraseKey, hk]
      omega

theorem mapFind_mapEraseKey_self {l : List (Key × Value)}
    (hnd : (l.map Prod.fst).Nodup) (key : Key) :
    mapFind (mapEraseKey l key) key = none := by
  induction l with
  | nil => simp [mapEraseKey, mapFind]
  | cons p rest ih =>
    obtain ⟨k, v⟩ := p
    rw [List.map_cons, List.nodup_cons] at hnd
    by_cases hk : k = key
    · subst hk
      simpa [mapEraseKey] using mapFind_eq_none_iff.mpr hnd.1
    · simp [mapEraseKey, hk, mapFind]
      exact ih hnd.2

/-! Sequences of insert/remove operations, for the size invariant. -/

/-- One mutation in an insert/remove sequence: `ins` is the signalling
insertion `emplace` (lines 134-139), `rem` is the signalling removal
`erase(const Key&)` (lines 146-159). -/
inductive MapOp (Key Value : Type) where
  | ins (key : Key) (value : Value)
  | rem (key : Key)

/-- Apply one operation to a store, keeping only the post-call state. -/
def applyOp (m : ReactiveUnorderedMap Key Value) : MapOp Key Value → ReactiveUnorderedMap Key Value
  | .ins key value => (m.emplace key value).2.1
  | .rem key => (m.erase key).2.1

/-- Run a sequence of insert/remove operations on an initially empty
store, left to right. -/
def runOps (ops : List (MapOp Key Value)) : ReactiveUnorderedMap Key Value :=
  ops.foldl applyOp ⟨[]⟩

theorem keysNodup_applyOp {m : ReactiveUnorderedMap Key Value}
    (h : keysNodup m) (op : MapOp Key Value) : keysNodup (applyOp m op) := by
  cases op with
  | ins key value =>
    show keysNodup (m.emplace key value).2.1
    unfold ReactiveUnorderedMap.emplace
    cases hf : mapFind m.map_ key with
    | some v => exact h
    | none =>
      show ((m.map_ ++ [(key, value)]).map Prod.fst).Nodup
      rw [List.map_append]
      rw [List.nodup_append]
      refine ⟨h, by simp, ?_⟩
      intro a ha hb
      simp at hb
      subst hb
      exact mapFind_eq_none_iff.mp hf ha
  | rem key =>
    show keysNodup (m.erase key).2.1
    unfold ReactiveUnorderedMap.erase
    cases hf : mapFind m.map_ key with
    | none => exact h
    | some v =>
      show ((mapEraseKey m.map_ key).map Prod.fst).Nodup
      exact h.sublist ((mapEraseKey_sublist m.map_ key).map Prod.fst)

theorem keysNodup_foldl (ops : List (MapOp Key Value))
    (m : ReactiveUnorderedMap Key Value) (h : keysNodup m) :
    keysNodup (ops.foldl applyOp m) := by
  induction ops generalizing m with
  | nil => exact h
  | cons op rest ih => exact ih _ (keysNodup_applyOp h op)

/-- Every store reachable from the empty store through insert/remove
sequences has pairwise-distinct keys. -/
theorem keysNodup_runOps (ops : List (MapOp Key Value)) : keysNodup (runOps ops) :=
  keysNodup_foldl ops ⟨[]⟩ (by simp [keysNodup])

/-! Claim theorems. -/

/-- C1: `emplace` (insert-if-absent) on a store where the key is absent
adds the entry, returns inserted=true, and emits exactly the one event
`Inserted key value`, after which lookup (`find`) of that key returns
the inserted value; on a store where the key is already present it
leaves the store — in particular the stored value — unchanged, returns
inserted=false, and emits no event. -/
theorem emplace_insert_if_absent_spec (m : ReactiveUnorderedMap Key Value)
    (key : Key) (value : Value) :
    (mapFind m.map_ key = none →
      (m.emplace key value).1.2 = true ∧
      (m.emplace key value).2.2 = [MapEvent.Inserted key value] ∧
      (m.emplace key value).2.1.find key = some value) ∧
    (∀ v₀, mapFind m.map_ key = some v₀ →
      (m.emplace key value).1.2 = false ∧
      (m.emplace key value).2.2 = [] ∧
      (m.emplace key value).2.1 = m ∧
      (m.emplace key value).2.1.find key = some v₀) := by
  constructor
  · intro h
    refine ⟨?_, ?_, ?_⟩ <;>
      simp [ReactiveUnorderedMap.emplace, h, ReactiveUnorderedMap.find,
        mapFind_append_self h]
  · intro v₀ h
    refine ⟨?_, ?_, ?_, ?_⟩ <;>
      simp [ReactiveUnorderedMap.emplace, h, ReactiveUnorderedMap.find]

/-- Witness for C1 on the concrete store {(1, 5)}: inserting the absent
key 2 and re-inserting the present key 1. -/
theorem emplace_insert_if_absent_spec_witness :
    (((⟨[(1, 5)]⟩ : ReactiveUnorderedMap Nat Nat).emplace 2 7).1.2 = true ∧
      ((⟨[(1, 5)]⟩ : ReactiveUnorderedMap Nat Nat).emplace 2 7).2.2 =
        [MapEvent.Inserted 2 7] ∧
      ((⟨[(1, 5)]⟩ : ReactiveUnorderedMap Nat Nat).emplace 2 7).2.1.find 2 = some 7) ∧
    (((⟨[(1, 5)]⟩ : ReactiveUnorderedMap Nat Nat).emplace 1 9).1.2 = false ∧
      ((⟨[(1, 5)]⟩ : ReactiveUnorderedMap Nat Nat).emplace 1 9).2.2 = [] ∧
      ((⟨[(1, 5)]⟩ : ReactiveUnorderedMap Nat Nat).emplace 1 9).2.1 = ⟨[(1, 5)]⟩ ∧
      ((⟨[(1, 5)]⟩ : ReactiveUnorderedMap Nat Nat).emplace 1 9).2.1.find 1 = some 5) :=
  ⟨(emplace_insert_if_absent_spec ⟨[(1, 5)]⟩ 2 7).1 (by decide),
   (emplace_insert_if_absent_spec ⟨[(1, 5)]⟩ 1 9).2 5 (by decide)⟩

/-- C2: `erase(const Key&)` on a store (with the `std::unordered_map`
key-uniqueness invariant) where the key is present deletes the entry —
the key is absent afterwards and the size drops by one — returns
count 1, and emits exactly one `Erased` event whose old value equals
the value mapped to the key immediately before the removal; on a store
where the key is absent it changes nothing, emits no event, and
returns count 0. -/
theorem erase_by_key_spec (m : ReactiveUnorderedMap Key Value) (key : Key)
    (hwf : keysNodup m) :
    (∀ old_value, mapFind m.map_ key = some old_value →
      (m.erase key).1 = 1 ∧
      (m.erase key).2.2 = [MapEvent.Erased key old_value] ∧
      (m.erase key).2.1.find key = none ∧
      (m.erase key).2.1.size + 1 = m.size) ∧
    (mapFind m.map_ key = none →
      (m.erase key).1 = 0 ∧
      (m.erase key).2.1 = m ∧
      (m.erase key).2.2 = []) := by
  constructor
  · intro old_value h
    have hlen := length_mapEraseKey h
    have hnum : m.map_.length - (mapEraseKey m.map_ key).length = 1 := by omega
    refine ⟨?_, ?_, ?_, ?_⟩
    · simp [ReactiveUnorderedMap.erase, h, hnum]
    · simp [ReactiveUnorderedMap.erase, h, hnum]
    · simp only [ReactiveUnorderedMap.erase, h, ReactiveUnorderedMap.find]
      exact mapFind_mapEraseKey_self hwf key
    · simp only [ReactiveUnorderedMap.erase, h, ReactiveUnorderedMap.size]
      exact hlen
  · intro h
    refine ⟨?_, ?_, ?_⟩ <;> simp [ReactiveUnorderedMap.erase, h]

/-- Witness for C2 on the concrete store {(1, 5), (2, 6)}: erasing the
present key 1 and the absent key 3. -/
theorem erase_by_key_spec_witness :
    (((⟨[(1, 5), (2, 6)]⟩ : ReactiveUnorderedMap Nat Nat).erase 1).1 = 1 ∧
      ((⟨[(1, 5), (2, 6)]⟩ : ReactiveUnorderedMap Nat Nat).erase 1).2.2 =
        [MapEvent.Erased 1 5] ∧
      ((⟨[(1, 5), (2, 6)]⟩ : ReactiveUnorderedMap Nat Nat).erase 1).2.1.find 1 = none ∧
      ((⟨[(1, 5), (2, 6)]⟩ : ReactiveUnorderedMap Nat Nat).erase 1).2.1.size + 1 =
        (⟨[(1, 5), (2, 6)]⟩ : ReactiveUnorderedMap Nat Nat).size) ∧
    (((⟨[(1, 5), (2, 6)]⟩ : ReactiveUnorderedMap Nat Nat).erase 3).1 = 0 ∧
      ((⟨[(1, 5), (2, 6)]⟩ : ReactiveUnorderedMap Nat Nat).erase 3).2.1 =
        ⟨[(1, 5), (2, 6)]⟩ ∧
      ((⟨[(1, 5), (2, 6)]⟩ : ReactiveUnorderedMap Nat Nat).erase 3).2.2 = []) :=
  ⟨(erase_by_key_spec ⟨[(1, 5), (2, 6)]⟩ 1 (by decide)).1 5 (by decide),
   (erase_by_key_spec ⟨[(1, 5), (2, 6)]⟩ 3 (by decide)).2 (by decide)⟩

/-- C3 counterexample: on the concrete non-empty store {(0, 1)}, `clear`
emits no event at all — not exactly one `Cleared` event as the claim
states. -/
theorem clear_emits_cleared_cex :
    ¬ (((⟨[(0, 1)]⟩ : ReactiveUnorderedMap Nat Nat).clear).2 =
        [MapEvent.Cleared]) := by
  decide

/-- C3 amended: `clear` removes every entry, leaving `size() == 0`, and
emits no event — on empty and non-empty stores alike (the member never
touches the signal emitter; the `Cleared` payload type is declared but
never emitted). -/
theorem clear_spec (m : ReactiveUnorderedMap Key Value) :
    (m.clear).1.size = 0 ∧ (m.clear).2 = [] :=
  ⟨rfl, rfl⟩

/-- C4: after any sequence of insert (`emplace`) and remove
(`erase(const Key&)`) operations applied to an initially empty store,
`size()` equals the number of distinct keys currently present. -/
theorem size_eq_distinct_key_count (ops : List (MapOp Key Value)) :
    (runOps ops).size = ((runOps ops).map_.map Prod.fst).dedup.length := by
  have h : ((runOps ops).map_.map Prod.fst).Nodup := keysNodup_runOps ops
  rw [List.Nodup.dedup h]
  simp [ReactiveUnorderedMap.size]

/-- C5: in each emitting mutation (`emplace`, `erase(const Key&)`) the
internal map is updated before the event is constructed and emitted,
and no further state change follows the emission; hence the state a
re-entrant lookup observes during the emission is the operation's
returned post-state.  Whenever an insertion's `Inserted` emission
begins, the key is present with the new value, and whenever a removal's
`Erased` emission begins, the key is absent (here with the
`std::unordered_map` key-uniqueness invariant). -/
theorem emit_after_mutation (m : ReactiveUnorderedMap Key Value) (key : Key)
    (value : Value) (hwf : keysNodup m) :
    ((m.emplace key value).2.2 ≠ [] →
      (m.emplace key value).2.1.find key = some value) ∧
    ((m.erase key).2.2 ≠ [] →
      (m.erase key).2.1.find key = none) := by
  constructor
  · intro hne
    cases hf : mapFind m.map_ key with
    | some v =>
      exact absurd (by simp [ReactiveUnorderedMap.emplace, hf]) hne
    | none =>
      simp [ReactiveUnorderedMap.emplace, hf, ReactiveUnorderedMap.find,
        mapFind_append_self hf]
  · intro hne
    cases hf : mapFind m.map_ key with
    | none =>
      exact absurd (by simp [ReactiveUnorderedMap.erase, hf]) hne
    | some v =>
      simp only [ReactiveUnorderedMap.erase, hf, ReactiveUnorderedMap.find]
      exact mapFind_mapEraseKey_self hwf key

/-- Witness for C5 on the concrete store {(1, 5)}: the inserting
`emplace 2 7` emits, and afterwards key 2 maps to 7; the removing
`erase 1` emits, and afterwards key 1 is absent. -/
theorem emit_after_mutation_witness :
    ((⟨[(1, 5)]⟩ : ReactiveUnorderedMap Nat Nat).emplace 2 7).2.1.find 2 = some 7 ∧
    ((⟨[(1, 5)]⟩ : ReactiveUnorderedMap Nat Nat).erase 1).2.1.find 1 = none :=
  ⟨(emit_after_mutation ⟨[(1, 5)]⟩ 2 7 (by decide)).1 (by decide),
   (emit_after_mutation ⟨[(1, 5)]⟩ 1 0 (by decide)).2 (by decide)⟩

/-- C6 counterexample: on the empty store, `insert_or_assign(0, 1)`
newly inserts the key but emits no event — contradicting the claim
that an `Inserted` event is emitted when the key was new. -/
theorem insert_or_assign_emits_cex :
    ¬ (((⟨[]⟩ : ReactiveUnorderedMap Nat Nat).insert_or_assign 0 1).2.2 =
        [MapEvent.Inserted 0 1]) := by
  decide

/-- C6 amended: `insert_or_assign` inserts a new entry when the key is
absent and overwrites the existing value when the key is present,
returns true iff the entry was newly inserted, and emits no event in
either case (the member forwards to the underlying map and never
touches the signal emitter). -/
theorem insert_or_assign_spec (m : ReactiveUnorderedMap Key Value)
    (key : Key) (value : Value) :
    (m.insert_or_assign key value).2.2 = [] ∧
    (mapFind m.map_ key = none →
      (m.insert_or_assign key value).1.2 = true ∧
      (m.insert_or_assign key value).2.1.find key = some value) ∧
    (∀ v₀, mapFind m.map_ key = some v₀ →
      (m.insert_or_assign key value).1.2 = false ∧
      (m.insert_or_assign key value).2.1.find key = some value) := by
  refine ⟨?_, ?_, ?_⟩
  · cases hf : mapFind m.map_ key <;>
      simp [ReactiveUnorderedMap.insert_or_assign, hf]
  · intro h
    constructor <;>
      simp [ReactiveUnorderedMap.insert_or_assign, h, ReactiveUnorderedMap.find,
        mapFind_append_self h]
  · intro v₀ h
    constructor
    · simp [ReactiveUnorderedMap.insert_or_assign, h]
    · simp only [ReactiveUnorderedMap.insert_or_assign, h, ReactiveUnorderedMap.find]
      exact mapFind_mapAssign_self h value

/-- Witness for C6 (amended) on the concrete store {(1, 5)}: upserting
the absent key 2 and the present key 1. -/
theorem insert_or_assign_spec_witness :
    (((⟨[(1, 5)]⟩ : ReactiveUnorderedMap Nat Nat).insert_or_assign 2 7).1.2 = true ∧
      ((⟨[(1, 5)]⟩ : ReactiveUnorderedMap Nat Nat).insert_or_assign 2 7).2.1.find 2 =
        some 7) ∧
    (((⟨[(1, 5)]⟩ : ReactiveUnorderedMap Nat Nat).insert_or_assign 1 9).1.2 = false ∧
      ((⟨[(1, 5)]⟩ : ReactiveUnorderedMap Nat Nat).insert_or_assign 1 9).2.1.find 1 =
        some 9) :=
  ⟨(insert_or_assign_spec ⟨[(1, 5)]⟩ 2 7).2.1 (by decide),
   (insert_or_assign_spec ⟨[(1, 5)]⟩ 1 9).2.2 5 (by decide)⟩

/-- C7: the unchecked accessor `at` fails with the key-not-found error
exactly when the key is absent and yields the mapped value exactly when
the key is present; the other lookups are total and signal absence in
their return value — `find` with `none` and `contains` with `false` —
so in this embedding `at` is the only lookup whose result type is
fallible (`Except`). -/
theorem at_key_not_found_spec (m : ReactiveUnorderedMap Key Value) (key : Key) :
    (m.at' key = .error () ↔ m.find key = none) ∧
    (∀ v, m.at' key = .ok v ↔ m.find key = some v) ∧
    (m.contains key = false ↔ m.find key = none) := by
  refine ⟨?_, ?_, ?_⟩
  · cases hf : mapFind m.map_ key <;>
      simp [ReactiveUnorderedMap.at', ReactiveUnorderedMap.find, hf]
  · intro v
    cases hf : mapFind m.map_ key <;>
      simp [ReactiveUnorderedMap.at', ReactiveUnorderedMap.find, hf]
  · cases hf : mapFind m.map_ key <;>
      simp [ReactiveUnorderedMap.contains, ReactiveUnorderedMap.find, hf]

/-- Witness for C7 on the concrete store {(1, 5)}: `at` succeeds on the
present key 1 and fails on the absent key 2. -/
theorem at_key_not_found_spec_witness :
    (⟨[(1, 5)]⟩ : ReactiveUnorderedMap Nat Nat).at' 1 = .ok 5 ∧
    (⟨[(1, 5)]⟩ : ReactiveUnorderedMap Nat Nat).at' 2 = .error () :=
  ⟨((at_key_not_found_spec ⟨[(1, 5)]⟩ 1).2.1 5).mpr (by decide),
   (at_key_not_found_spec ⟨[(1, 5)]⟩ 2).1.mpr (by decide)⟩

/-- C8: `try_emplace` adds an entry for the key iff the key is absent,
returning the insertion flag, and emits no event in either case — even
on a successful insertion; together with the non-emission of
`insert_or_assign` and `operator[]`, `emplace` is the only insertion
path that emits `Inserted`. -/
theorem try_emplace_no_emit_spec [Inhabited Value]
    (m : ReactiveUnorderedMap Key Value) (key : Key) (value : Value) :
    (m.try_emplace key value).2.2 = [] ∧
    (mapFind m.map_ key = none →
      (m.try_emplace key value).1.2 = true ∧
      (m.try_emplace key value).2.1.find key = some value) ∧
    (∀ v₀, mapFind m.map_ key = some v₀ →
      (m.try_emplace key value).1.2 = false ∧
      (m.try_emplace key value).2.1 = m) ∧
    (m.insert_or_assign key value).2.2 = [] ∧
    (m.opIndex key).2.2 = [] := by
  refine ⟨?_, ?_, ?_, ?_, ?_⟩
  · cases hf : mapFind m.map_ key <;>
      simp [ReactiveUnorderedMap.try_emplace, hf]
  · intro h
    constructor <;>
      simp [ReactiveUnorderedMap.try_emplace, h, ReactiveUnorderedMap.find,
        mapFind_append_self h]
  · intro v₀ h
    constructor <;> simp [ReactiveUnorderedMap.try_emplace, h]
  · cases hf : mapFind m.map_ key <;>
      simp [ReactiveUnorderedMap.insert_or_assign, hf]
  · cases hf : mapFind m.map_ key <;>
      simp [ReactiveUnorderedMap.opIndex, hf]

/-- Witness for C8 on the concrete store {(1, 5)}: `try_emplace` on the
absent key 2 inserts without emitting; on the present key 1 it leaves
the store unchanged. -/
theorem try_emplace_no_emit_spec_witness :
    ((⟨[(1, 5)]⟩ : ReactiveUnorderedMap Nat Nat).try_emplace 2 7).2.2 = [] ∧
    (((⟨[(1, 5)]⟩ : ReactiveUnorderedMap Nat Nat).try_emplace 2 7).1.2 = true ∧
      ((⟨[(1, 5)]⟩ : ReactiveUnorderedMap Nat Nat).try_emplace 2 7).2.1.find 2 =
        some 7) ∧
    (((⟨[(1, 5)]⟩ : ReactiveUnorderedMap Nat Nat).try_emplace 1 9).1.2 = false ∧
      ((⟨[(1, 5)]⟩ : ReactiveUnorderedMap Nat Nat).try_emplace 1 9).2.1 =
        ⟨[(1, 5)]⟩) :=
  ⟨(try_emplace_no_emit_spec (⟨[(1, 5)]⟩ : ReactiveUnorderedMap Nat Nat) 2 7).1,
   (try_emplace_no_emit_spec (⟨[(1, 5)]⟩ : ReactiveUnorderedMap Nat Nat) 2 7).2.1
     (by decide),
   (try_emplace_no_emit_spec (⟨[(1, 5)]⟩ : ReactiveUnorderedMap Nat Nat) 1 9).2.2.1 5
     (by decide)⟩

/-- C9: `operator[]` on an absent key inserts a default-constructed
value under that key, increasing `size()` by one, and returns it,
emitting no event; on a present key it returns the existing value,
changes nothing, and emits nothing. -/
theorem opIndex_default_insert_spec [Inhabited Value]
    (m : ReactiveUnorderedMap Key Value) (key : Key) :
    (mapFind m.map_ key = none →
      (m.opIndex key).1 = (default : Value) ∧
      (m.opIndex key).2.1.find key = some (default : Value) ∧
      (m.opIndex key).2.1.size = m.size + 1 ∧
      (m.opIndex key).2.2 = []) ∧
    (∀ v, mapFind m.map_ key = some v →
      (m.opIndex key).1 = v ∧
      (m.opIndex key).2.1 = m ∧
      (m.opIndex key).2.2 = []) := by
  constructor
  · intro h
    refine ⟨?_, ?_, ?_, ?_⟩ <;>
      simp [ReactiveUnorderedMap.opIndex, h, ReactiveUnorderedMap.find,
        ReactiveUnorderedMap.size, mapFind_append_self h]
  · intro v h
    refine ⟨?_, ?_, ?_⟩ <;> simp [ReactiveUnorderedMap.opIndex, h]

/-- Witness for C9 on the concrete store {(1, 5)} with `Value := Nat`
(default-constructed value 0): indexing the absent key 2 and the
present key 1. -/
theorem opIndex_default_insert_spec_witness :
    (((⟨[(1, 5)]⟩ : ReactiveUnorderedMap Nat Nat).opIndex 2).1 = 0 ∧
      ((⟨[(1, 5)]⟩ : ReactiveUnorderedMap Nat Nat).opIndex 2).2.1.find 2 = some 0 ∧
      ((⟨[(1, 5)]⟩ : ReactiveUnorderedMap Nat Nat).opIndex 2).2.1.size =
        (⟨[(1, 5)]⟩ : ReactiveUnorderedMap Nat Nat).size + 1 ∧
      ((⟨[(1, 5)]⟩ : ReactiveUnorderedMap Nat Nat).opIndex 2).2.2 = []) ∧
    (((⟨[(1, 5)]⟩ : ReactiveUnorderedMap Nat Nat).opIndex 1).1 = 5 ∧
      ((⟨[(1, 5)]⟩ : ReactiveUnorderedMap Nat Nat).opIndex 1).2.1 = ⟨[(1, 5)]⟩ ∧
      ((⟨[(1, 5)]⟩ : ReactiveUnorderedMap Nat Nat).opIndex 1).2.2 = []) :=
  ⟨(opIndex_default_insert_spec (⟨[(1, 5)]⟩ : ReactiveUnorderedMap Nat Nat) 2).1
     (by decide),
   (opIndex_default_insert_spec (⟨[(1, 5)]⟩ : ReactiveUnorderedMap Nat Nat) 1).2 5
     (by decide)⟩

/-- C10: `erase(iterator pos)` at a valid position removes exactly the
entry at that position — the remaining entries, in order, are those
before it followed by those after it, and the size drops by one —
returns the iterator to the following entry (the entry formerly at
`pos + 1` is now at `pos`), and emits no event, unlike the key-overload
`erase`. -/
theorem erase_iterator_spec (m : ReactiveUnorderedMap Key Value) (pos : Nat)
    (h : pos < m.map_.length) :
    (m.erasePos pos).1 = pos ∧
    (m.erasePos pos).2.1.map_ = m.map_.take pos ++ m.map_.drop (pos + 1) ∧
    (m.erasePos pos).2.1.size + 1 = m.size ∧
    (m.erasePos pos).2.1.map_[pos]? = m.map_[pos + 1]? ∧
    (m.erasePos pos).2.2 = [] := by
  have htd : m.map_.eraseIdx pos = m.map_.take pos ++ m.map_.drop (pos + 1) :=
    List.eraseIdx_eq_take_drop_succ m.map_ pos
  refine ⟨rfl, htd, ?_, ?_, rfl⟩
  · show (m.map_.eraseIdx pos).length + 1 = m.map_.length
    exact List.length_eraseIdx_add_one h
  · show (m.map_.eraseIdx pos)[pos]? = m.map_[pos + 1]?
    rw [htd]
    have hlt : (m.map_.take pos).length = pos := by
      simp [List.length_take]
      omega
    rw [List.getElem?_append_right (by omega)]
    rw [hlt]
    simp [List.getElem?_drop]

/-- Witness for C10 on the concrete store [(1, 5), (2, 6), (3, 7)] at
position 1. -/
theorem erase_iterator_spec_witness :
    ((⟨[(1, 5), (2, 6), (3, 7)]⟩ : ReactiveUnorderedMap Nat Nat).erasePos 1).1 = 1 ∧
    ((⟨[(1, 5), (2, 6), (3, 7)]⟩ : ReactiveUnorderedMap Nat Nat).erasePos 1).2.1.map_ =
      [(1, 5), (3, 7)] ∧
    ((⟨[(1, 5), (2, 6), (3, 7)]⟩ : ReactiveUnorderedMap Nat Nat).erasePos 1).2.2 = [] := by
  have hs := erase_iterator_spec
    (⟨[(1, 5), (2, 6), (3, 7)]⟩ : ReactiveUnorderedMap Nat Nat) 1 (by decide)
  exact ⟨hs.1, by rw [hs.2.1]; rfl, hs.2.2.2.2⟩

end RUM
